import Mathlib

/-!
# Verification of the AI-SDR decision-orchestration core

A shallow embedding, in Lean 4, of the decision-orchestration layer of the
`ai-sdr-platform` repository:

* the GTM pipeline engine (`src/gtm_orchestrator.py`) and its stage agents
  (`gtm_event_classifier.py`, `schema_discovery_agent.py`,
  `routing_sla_agent.py`, `lifecycle_enforcement_agent.py`,
  `data_hygiene_agent.py`, `onboarding_go_live_agent.py`,
  `reporting_attribution_agent.py`, `ops_self_heal_agent.py`),
* the workspace config store (`src/config_store.py`, `src/workspace.py`),
* the negotiation auction (`src/negotiation_agent.py`),
* the GrowthBook local-mode client (`src/growthbook_mcp.py`): feature flags,
  targeting rules, stale-flag detection, and deterministic experiment
  bucketing (including a full model of the MD5 hash used for bucketing).

Python values are embedded as a JSON-like inductive `Value`; Python `float`
arithmetic is modelled with exact rationals; machine-level hashing uses `Nat`
with explicit reduction `% 2^32`; Python exceptions are modelled with
`Except String`; wall-clock timestamps are threaded explicitly (seconds as
`Nat`).
-/

namespace SDR

/-- Embedding of the Python values that flow through the pipeline:
`None`, `bool`, `int`, `float` (modelled as an exact rational), `str`,
`list`, and string-keyed `dict` (an association list in insertion order). -/
inductive Value where
  | vNull : Value
  | vBool (b : Bool) : Value
  | vInt (n : Int) : Value
  | vRat (q : ℚ) : Value
  | vStr (s : String) : Value
  | vList (l : List Value) : Value
  | vDict (d : List (String × Value)) : Value

open Value

/-- `d.get(k)` on a Python dict: the value at the first matching key. -/
def dGet (d : List (String × Value)) (k : String) : Option Value :=
  match d with
  | [] => none
  | (k', v) :: rest => if k' = k then some v else dGet rest k

/-- Python dict assignment `d[k] = v`: replaces in place if the key exists
(keeping its position, as Python dicts do), otherwise appends. -/
def dSet (d : List (String × Value)) (k : String) (v : Value) : List (String × Value) :=
  match d with
  | [] => [(k, v)]
  | (k', v') :: rest => if k' = k then (k, v) :: rest else (k', v') :: dSet rest k v

/-- Python truthiness (`bool(v)`) for the embedded values. -/
def truthy : Value → Bool
  | vNull => false
  | vBool b => b
  | vInt n => n ≠ 0
  | vRat q => q ≠ 0
  | vStr s => s ≠ ""
  | vList l => !l.isEmpty
  | vDict d => !d.isEmpty

/-- Truthiness of `d.get(k)` (a missing key is `None`, hence falsy). -/
def truthyO : Option Value → Bool
  | none => false
  | some v => truthy v

/-- Python `x or y` : `x` if truthy, else `y`. -/
def pyOr (x y : Value) : Value := if truthy x then x else y

/-- `needle in hay` on Python strings: substring containment. -/
def strContains (hay needle : String) : Bool :=
  decide (needle.data <:+: hay.data)

mutual

/-- Python `repr` of an embedded value, as used inside `str` of containers.
Strings are shown with single quotes (exact for strings without quote or
escape characters, which is the only case the repository data exercises). -/
def pyRepr : Value → String
  | vNull => "None"
  | vBool b => if b then "True" else "False"
  | vInt n => toString n
  | vRat q => toString q
  | vStr s => "'" ++ s ++ "'"
  | vList l => "[" ++ String.intercalate ", " (pyReprList l) ++ "]"
  | vDict d => "\x7b" ++ String.intercalate ", " (pyReprDict d) ++ "\x7d"

def pyReprList : List Value → List String
  | [] => []
  | v :: rest => pyRepr v :: pyReprList rest

def pyReprDict : List (String × Value) → List String
  | [] => []
  | (k, v) :: rest => ("'" ++ k ++ "': " ++ pyRepr v) :: pyReprDict rest

end

/-- Python `str(v)`: like `repr` except on strings, which print bare. -/
def pyStr : Value → String
  | vStr s => s
  | v => pyRepr v

/-- Python numeric coercion for cross-type equality and comparison:
`bool`, `int` and `float` all live on one number line. -/
def asNum : Value → Option ℚ
  | vBool b => some (if b then 1 else 0)
  | vInt n => some (n : ℚ)
  | vRat q => some q
  | _ => none

mutual

/-- Python `==` on the embedded values: numeric types compare by value
(`True == 1`, `1 == 1.0`), strings structurally, containers element-wise;
values of unrelated types are unequal (no exception). -/
def pyEq : Value → Value → Bool
  | vStr a, vStr b => a = b
  | vNull, vNull => true
  | vList a, vList b => pyEqList a b
  | vDict a, vDict b => pyEqDict a b
  | a, b =>
      match asNum a, asNum b with
      | some x, some y => x = y
      | _, _ => false

def pyEqList : List Value → List Value → Bool
  | [], [] => true
  | x :: xs, y :: ys => pyEq x y && pyEqList xs ys
  | _, _ => false

def pyEqDict : List (String × Value) → List (String × Value) → Bool
  | [], [] => true
  | (k, v) :: xs, (k', v') :: ys => k = k' && pyEq v v' && pyEqDict xs ys
  | _, _ => false

end

mutual

/-- Python `<` where defined: numbers cross-compare, strings and lists
compare lexicographically; anything else raises `TypeError` (`none`). -/
def pyLtV : Value → Value → Option Bool
  | vStr a, vStr b => some (a < b)
  | vList a, vList b => pyLtList a b
  | a, b =>
      match asNum a, asNum b with
      | some x, some y => some (decide (x < y))
      | _, _ => none

def pyLtList : List Value → List Value → Option Bool
  | [], [] => some false
  | [], _ :: _ => some true
  | _ :: _, [] => some false
  | x :: xs, y :: ys => if pyEq x y then pyLtList xs ys else pyLtV x y

end

/-- Python `s.lower()` (character-wise; kept structurally recursive so that
concrete runs reduce inside the kernel). -/
def pyLower (s : String) : String := String.mk (s.data.map Char.toLower)

/-- Python `s.strip()`: remove leading and trailing whitespace. -/
def pyStrip (s : String) : String :=
  String.mk (((s.data.dropWhile Char.isWhitespace).reverse.dropWhile
    Char.isWhitespace).reverse)

/-- `s.split(sep, 1)[1]`: everything after the first occurrence of `sep`
(the callers guard on the separator being present). -/
def pyAfterFirst (s : String) (sep : Char) : String :=
  String.mk ((s.data.dropWhile (fun c => !(c = sep))).tail)

/-- Python `int(v)` for the values the pipeline feeds it: ints pass through,
booleans become 0/1, floats truncate toward zero, strings parse as a decimal
integer (surrounding whitespace and a sign allowed); everything else raises. -/
def pyInt : Value → Except String Int
  | vInt n => .ok n
  | vBool b => .ok (if b then 1 else 0)
  | vRat q => .ok (q.num / (q.den : Int))
  | vStr s =>
      let t := (pyStrip s).data
      let (neg, digits) :=
        match t with
        | '-' :: rest => (true, rest)
        | '+' :: rest => (false, rest)
        | l => (false, l)
      if !digits.isEmpty && digits.all (fun c => c.isDigit) then
        let n : Nat := digits.foldl (fun acc c => acc * 10 + (c.toNat - 48)) 0
        .ok (if neg then -(n : Int) else (n : Int))
      else .error ("ValueError: invalid literal for int: " ++ s)
  | _ => .error "TypeError: int() argument"

/-- Iterating a Python value with `for`/`extend`: lists yield elements,
strings yield one-character strings, dicts yield their keys; other values
raise `TypeError`. -/
def pyIter : Value → Except String (List Value)
  | vList l => .ok l
  | vStr s => .ok (s.data.map (fun c => vStr (String.mk [c])))
  | vDict d => .ok (d.map (fun p => vStr p.1))
  | _ => .error "TypeError: object is not iterable"

/-- A value used where Python calls `str` methods (`.strip()`, `.lower()`):
anything but a string raises `AttributeError`. -/
def asPyStr : Value → Except String String
  | vStr s => .ok s
  | _ => .error "AttributeError: not a str"

end SDR

namespace SDR.MD5

/-! ## MD5 (RFC 1321)

`GrowthBookClient.get_experiment_variant` buckets users with
`int(hashlib.md5(f"{key}:{user_id}".encode()).hexdigest(), 16) % 100`.
This section is a byte-level model of that computation: UTF-8 encoding of
the input string, the MD5 compression function over `Nat` with explicit
reduction mod `2^32`, and the big-endian integer reading of the hex digest. -/

/-- `2^32`, the word modulus. -/
def M32 : Nat := 4294967296

/-- Rotate a 32-bit word (represented as a `Nat` below `2^32`) left by `n`. -/
def rotl32 (x n : Nat) : Nat :=
  ((x <<< n) % M32) ||| (x >>> (32 - n))

/-- Bitwise complement within 32 bits. -/
def not32 (x : Nat) : Nat := x ^^^ (M32 - 1)

/-- The 64 sine-derived round constants of RFC 1321. -/
def kTable : List Nat :=
  [0xd76aa478, 0xe8c7b756, 0x242070db, 0xc1bdceee,
   0xf57c0faf, 0x4787c62a, 0xa8304613, 0xfd469501,
   0x698098d8, 0x8b44f7af, 0xffff5bb1, 0x895cd7be,
   0x6b901122, 0xfd987193, 0xa679438e, 0x49b40821,
   0xf61e2562, 0xc040b340, 0x265e5a51, 0xe9b6c7aa,
   0xd62f105d, 0x02441453, 0xd8a1e681, 0xe7d3fbc8,
   0x21e1cde6, 0xc33707d6, 0xf4d50d87, 0x455a14ed,
   0xa9e3e905, 0xfcefa3f8, 0x676f02d9, 0x8d2a4c8a,
   0xfffa3942, 0x8771f681, 0x6d9d6122, 0xfde5380c,
   0xa4beea44, 0x4bdecfa9, 0xf6bb4b60, 0xbebfbc70,
   0x289b7ec6, 0xeaa127fa, 0xd4ef3085, 0x04881d05,
   0xd9d4d039, 0xe6db99e5, 0x1fa27cf8, 0xc4ac5665,
   0xf4292244, 0x432aff97, 0xab9423a7, 0xfc93a039,
   0x655b59c3, 0x8f0ccc92, 0xffeff47d, 0x85845dd1,
   0x6fa87e4f, 0xfe2ce6e0, 0xa3014314, 0x4e0811a1,
   0xf7537e82, 0xbd3af235, 0x2ad7d2bb, 0xeb86d391]

/-- The per-round left-rotation amounts of RFC 1321. -/
def sTable : List Nat :=
  [7, 12, 17, 22, 7, 12, 17, 22, 7, 12, 17, 22, 7, 12, 17, 22,
   5, 9, 14, 20, 5, 9, 14, 20, 5, 9, 14, 20, 5, 9, 14, 20,
   4, 11, 16, 23, 4, 11, 16, 23, 4, 11, 16, 23, 4, 11, 16, 23,
   6, 10, 15, 21, 6, 10, 15, 21, 6, 10, 15, 21, 6, 10, 15, 21]

/-- The nonlinear mixing function of step `i` applied to `(b, c, d)`. -/
def mixF (i b c d : Nat) : Nat :=
  if i < 16 then (b &&& c) ||| (not32 b &&& d)
  else if i < 32 then (d &&& b) ||| (not32 d &&& c)
  else if i < 48 then b ^^^ c ^^^ d
  else c ^^^ (b ||| not32 d)

/-- The message-word index used at step `i`. -/
def gIndex (i : Nat) : Nat :=
  if i < 16 then i
  else if i < 32 then (5 * i + 1) % 16
  else if i < 48 then (3 * i + 5) % 16
  else (7 * i) % 16

/-- Little-endian 32-bit word `j` of a 64-byte block. -/
def leWord (block : List Nat) (j : Nat) : Nat :=
  block.getD (4 * j) 0 + 256 * block.getD (4 * j + 1) 0 +
    65536 * block.getD (4 * j + 2) 0 + 16777216 * block.getD (4 * j + 3) 0

/-- One of the 64 steps of the compression function. -/
def md5Step (block : List Nat) (st : Nat × Nat × Nat × Nat) (i : Nat) :
    Nat × Nat × Nat × Nat :=
  let (a, b, c, d) := st
  let f := (a + mixF i b c d + kTable.getD i 0 + leWord block (gIndex i)) % M32
  (d, (b + rotl32 f (sTable.getD i 0)) % M32, b, c)

/-- The compression function on one 64-byte block. -/
def processBlock (st : Nat × Nat × Nat × Nat) (block : List Nat) :
    Nat × Nat × Nat × Nat :=
  let (a0, b0, c0, d0) := st
  let (a, b, c, d) := (List.range 64).foldl (md5Step block) st
  ((a0 + a) % M32, (b0 + b) % M32, (c0 + c) % M32, (d0 + d) % M32)

/-- Split a padded message into `n` blocks of 64 bytes. -/
def splitBlocks : Nat → List Nat → List (List Nat)
  | 0, _ => []
  | n + 1, l => l.take 64 :: splitBlocks n (l.drop 64)

/-- RFC 1321 padding: a `0x80` byte, zeros to 56 mod 64, then the bit
length as a little-endian 64-bit integer. -/
def pad (msg : List Nat) : List Nat :=
  let len := msg.length
  let zeros := (119 - len % 64) % 64
  let bitLen := (len * 8) % (2 ^ 64)
  msg ++ [0x80] ++ List.replicate zeros 0 ++
    (List.range 8).map (fun i => bitLen / (256 ^ i) % 256)

/-- A 32-bit word as its four little-endian bytes. -/
def wordBytes (x : Nat) : List Nat :=
  [x % 256, x / 256 % 256, x / 65536 % 256, x / 16777216 % 256]

/-- The 16-byte MD5 digest of a byte string. -/
def md5Digest (msg : List Nat) : List Nat :=
  let padded := pad msg
  let blocks := splitBlocks (padded.length / 64) padded
  let (a, b, c, d) :=
    blocks.foldl processBlock (0x67452301, 0xefcdab89, 0x98badcfe, 0x10325476)
  wordBytes a ++ wordBytes b ++ wordBytes c ++ wordBytes d

/-- UTF-8 bytes of one code point. -/
def utf8Char (c : Nat) : List Nat :=
  if c < 0x80 then [c]
  else if c < 0x800 then [0xC0 + c / 64, 0x80 + c % 64]
  else if c < 0x10000 then
    [0xE0 + c / 4096, 0x80 + c / 64 % 64, 0x80 + c % 64]
  else
    [0xF0 + c / 0x40000, 0x80 + c / 4096 % 64, 0x80 + c / 64 % 64, 0x80 + c % 64]

/-- UTF-8 encoding of a string (Python `s.encode()`). -/
def strBytes (s : String) : List Nat :=
  (s.data.map (fun c => utf8Char c.toNat)).flatten

/-- `int(hashlib.md5(s.encode()).hexdigest(), 16)`: the digest bytes read
as one big-endian integer. -/
def md5Int (s : String) : Nat :=
  (md5Digest (strBytes s)).foldl (fun acc b => acc * 256 + b) 0

end SDR.MD5

namespace SDR.Auction

/-! ## Resource auction (`src/negotiation_agent.py`, `NegotiationAgent.run_auction`)

Bid and quality maps are Python dicts (`Dict[str, float]`, `Dict[str, int]`);
they are embedded as association lists in insertion order with the keys
understood to be distinct, which is exactly what iterating `dict.items()`
yields. Float arithmetic is modelled with exact rationals. -/

/-- The result dataclass `NegotiationResponse`. -/
structure NegotiationResponse where
  consensus_reached : Bool
  selected_agents : List String
  total_cost : ℚ
  rationale : String

/-- `value_ratios`: quality/cost per agent, taking the quality itself when
the bid is not positive, with quality defaulting to 50 for unknown agents. -/
def valueRatios (bids quality : List (String × ℚ)) : List (String × ℚ) :=
  bids.map (fun p =>
    let q := (quality.lookup p.1).getD 50
    (p.1, if p.2 > 0 then q / p.2 else q))

/-- Insert into a list sorted by ratio descending, after all entries with a
ratio at least as large (this is what keeps the sort stable). -/
def insertDesc (p : String × ℚ) : List (String × ℚ) → List (String × ℚ)
  | [] => [p]
  | q :: rest => if p.2 ≤ q.2 then q :: insertDesc p rest else p :: q :: rest

/-- `sorted(value_ratios.items(), key=itemgetter(1), reverse=True)`:
a stable descending sort by ratio. -/
def sortDesc (l : List (String × ℚ)) : List (String × ℚ) :=
  l.foldl (fun acc p => insertDesc p acc) []

/-- One iteration of the greedy selection loop: accept the agent exactly
when the accumulated cost plus its cost stays within the budget. -/
def greedyStep (bids : List (String × ℚ)) (budget : ℚ)
    (acc : List String × ℚ) (p : String × ℚ) : List String × ℚ :=
  let agent_cost := (bids.lookup p.1).getD 0
  if acc.2 + agent_cost ≤ budget then (acc.1 ++ [p.1], acc.2 + agent_cost) else acc

/-- The selected agents and their raw (unrounded) cumulative cost. -/
def auctionSelect (bids quality : List (String × ℚ)) (budget : ℚ) :
    List String × ℚ :=
  (sortDesc (valueRatios bids quality)).foldl (greedyStep bids budget) ([], 0)

/-- Python `round` to an integer: round half to even. -/
def roundHalfEven (q : ℚ) : ℤ :=
  let f := ⌊q⌋
  let r := q - f
  if r < 1 / 2 then f
  else if 1 / 2 < r then f + 1
  else if Even f then f else f + 1

/-- Python `round(x, 4)`. -/
def pyRound4 (q : ℚ) : ℚ := (roundHalfEven (q * 10000) : ℚ) / 10000

/-- `NegotiationAgent.run_auction` (local greedy auction). -/
def run_auction (bids quality : List (String × ℚ)) (budget : ℚ) :
    NegotiationResponse :=
  let sel := auctionSelect bids quality budget
  { consensus_reached := decide (sel.1.length ≥ 2)
    selected_agents := sel.1
    total_cost := pyRound4 sel.2
    rationale := "Selected " ++ toString sel.1.length ++ " agents within $" ++
      toString budget ++ " budget" }

end SDR.Auction

namespace SDR.GB

open SDR SDR.Value

/-! ## GrowthBook local-mode client (`src/growthbook_mcp.py`)

The client's local mode keeps flags and experiments in in-process dicts and
is the code the claims are about. Registries are embedded as association
lists in insertion order; `datetime.utcnow()` is threaded explicitly as a
`now : Nat` timestamp in seconds. -/

/-- `ExperimentStatus`. -/
inductive ExperimentStatus where
  | draft | running | stopped | archived
deriving DecidableEq

/-- One entry of `Experiment.variations`: a `{key, weight}` dict (the data
model of §3; `weight` defaults of `.get("weight", 50)` are materialized). -/
structure Variation where
  key : String
  weight : ℚ

/-- The fields of the `Experiment` dataclass that `get_experiment_variant`
reads. -/
structure Experiment where
  key : String
  status : ExperimentStatus
  variations : List Variation
  traffic_percent : ℚ

/-- A targeting rule: the nested `rule["condition"]` dict flattened to its
read fields, plus the boolean override `rule.get("value", ...)`. Absent
fields are `none`, matching `dict.get`. -/
structure Rule where
  attr : Option String
  op : String
  value : Value
  override : Option Bool

/-- The fields of the `FeatureFlag` dataclass that `is_on`, `is_stale` and
`get_stale_flags` read. -/
structure FeatureFlag where
  key : String
  enabled : Bool
  rules : List Rule
  last_evaluated : Option Nat

/-- One entry of `_evaluation_log`. -/
structure EvalEntry where
  timestamp : Nat
  feature_key : String
  value : Bool
  attributes : Option (List (String × Value))

/-- The client's local-mode mutable state: the feature registry and the
evaluation log. -/
structure ClientState where
  features : List (String × FeatureFlag)
  evalLog : List EvalEntry

/-- `GrowthBookClient._evaluate_rule`: `False` when the condition names no
attribute or the attribute is absent; otherwise dispatch on the operator.
A Python `TypeError` from an ill-typed comparison is an `.error`. -/
def evaluate_rule (rule : Rule) (attributes : List (String × Value)) :
    Except String Bool :=
  let attr_key := rule.attr.getD ""
  if attr_key = "" then .ok false
  else match dGet attributes attr_key with
  | none => .ok false
  | some attr_value =>
    let target_value := rule.value
    if rule.op = "equals" then .ok (pyEq attr_value target_value)
    else if rule.op = "not_equals" then .ok (!pyEq attr_value target_value)
    else if rule.op = "contains" then
      match target_value with
      | vStr t => .ok (strContains (pyStr attr_value) t)
      | _ => .error "TypeError: in requires string as left operand"
    else if rule.op = "greater_than" then
      match pyLtV target_value attr_value with
      | some b => .ok b
      | none => .error "TypeError: unsupported comparison"
    else if rule.op = "less_than" then
      match pyLtV attr_value target_value with
      | some b => .ok b
      | none => .error "TypeError: unsupported comparison"
    else if rule.op = "in" then
      match target_value with
      | vList l => .ok (l.any (fun v => pyEq attr_value v))
      | vStr t =>
          match attr_value with
          | vStr s => .ok (strContains t s)
          | _ => .error "TypeError: in requires string as left operand"
      | vDict d =>
          match attr_value with
          | vStr s => .ok (d.any (fun p => p.1 = s))
          | vInt _ => .ok false
          | vBool _ => .ok false
          | vRat _ => .ok false
          | vNull => .ok false
          | _ => .error "TypeError: unhashable type"
      | _ => .error "TypeError: argument is not iterable"
    else .ok false

/-- The `for rule in feature.rules` loop of `is_on`: the override carried by
the first rule that matches, resolved against the base `enabled` by
`rule.get("value", feature.enabled)`. -/
def rulesFirstMatch (rules : List Rule) (attributes : List (String × Value))
    (enabled : Bool) : Except String (Option Bool) :=
  match rules with
  | [] => .ok none
  | rule :: rest =>
    match evaluate_rule rule attributes with
    | .error e => .error e
    | .ok true => .ok (some (rule.override.getD enabled))
    | .ok false => rulesFirstMatch rest attributes enabled

/-- `GrowthBookClient._log_evaluation`. -/
def log_evaluation (st : ClientState) (now : Nat) (key : String) (value : Bool)
    (attributes : Option (List (String × Value))) : ClientState :=
  { st with evalLog := st.evalLog ++ [⟨now, key, value, attributes⟩] }

/-- Replace the entry of a feature key in the registry (in-place mutation of
the dataclass referenced by the dict). -/
def setFeature (features : List (String × FeatureFlag)) (key : String)
    (f : FeatureFlag) : List (String × FeatureFlag) :=
  match features with
  | [] => []
  | (k, f') :: rest =>
      if k = key then (k, f) :: rest else (k, f') :: setFeature rest key f

/-- `GrowthBookClient.is_on` in local mode, as a state transformer: the
returned boolean (or the propagated `TypeError`) together with the mutated
registry and evaluation log. -/
def is_on (st : ClientState) (now : Nat) (key : String)
    (attributes : Option (List (String × Value))) :
    Except String Bool × ClientState :=
  match (st.features.lookup key : Option FeatureFlag) with
  | none => (.ok false, st)
  | some feature =>
    let feature' := { feature with last_evaluated := some now }
    let st' := log_evaluation { st with features := setFeature st.features key feature' }
      now key feature.enabled attributes
    let attrsTruthy := match attributes with
      | none => false
      | some l => !l.isEmpty
    if !feature.rules.isEmpty && attrsTruthy then
      match rulesFirstMatch feature.rules (attributes.getD []) feature.enabled with
      | .error e => (.error e, st')
      | .ok (some v) => (.ok v, st')
      | .ok none => (.ok feature.enabled, st')
    else (.ok feature.enabled, st')

/-- `FeatureFlag.is_stale`: never evaluated, or evaluated more than `days`
whole days ago (`timedelta.days` floor-divides the elapsed seconds). -/
def is_stale (f : FeatureFlag) (days : Nat) (now : Nat) : Bool :=
  match f.last_evaluated with
  | none => true
  | some t => (now - t) / 86400 > days

/-- `GrowthBookClient.get_stale_flags` in local mode. -/
def get_stale_flags (st : ClientState) (days : Nat) (now : Nat) :
    List FeatureFlag :=
  (st.features.map Prod.snd).filter (fun f => is_stale f days now)

/-- The user's bucket: `int(md5(key + ":" + user_id).hexdigest(), 16) % 100`. -/
def bucketOf (key user_id : String) : Nat :=
  SDR.MD5.md5Int (key ++ ":" ++ user_id) % 100

/-- The variation-assignment loop: walk the variations accumulating weight
and return the first whose cumulative weight strictly exceeds the
normalized bucket. -/
def assignLoop (variations : List Variation) (cumulative : ℚ)
    (normalized : ℚ) : Option String :=
  match variations with
  | [] => none
  | v :: rest =>
      if normalized < cumulative + v.weight then some v.key
      else assignLoop rest (cumulative + v.weight) normalized

/-- `GrowthBookClient.get_experiment_variant` in local mode: `None` for an
unknown or non-running experiment, `None` when the bucket falls outside the
traffic allocation, otherwise the weighted variation for the normalized
bucket, falling back to the last variation's key. -/
def get_experiment_variant (experiments : List (String × Experiment))
    (key user_id : String) : Option String :=
  match (experiments.lookup key : Option Experiment) with
  | none => none
  | some exp =>
    if exp.status ≠ ExperimentStatus.running then none
    else
      let bucket := bucketOf key user_id
      if (bucket : ℚ) ≥ exp.traffic_percent then none
      else
        let normalized := ((bucket : ℚ) / exp.traffic_percent) * 100
        match assignLoop exp.variations 0 normalized with
        | some k => some k
        | none => (exp.variations.getLast?).map Variation.key

end SDR.GB

namespace SDR.GTM

open SDR SDR.Value

/-! ## GTM pipeline (`src/gtm_orchestrator.py` and the stage agents)

The orchestrator threads one mutable `GTMState` dict through eight stages.
Each stage agent is embedded as a function returning its decision dict as a
`Value` (or a raised Python exception as `.error`); the orchestrator
wrappers mirror the `handle_event` methods that write `decisions[...]` and
extend `actions`. The workspace JSON config store is embedded as the parsed
content of its file. -/

/-- The fields of `WorkspaceConfig` (`src/workspace.py`) that the pipeline
stages read (`mode`, `ids`, `thresholds`, `routing`); the remaining pydantic
fields (tool toggles, `field_map`, `plays_enabled`) are never touched by the
orchestrator. -/
structure WorkspaceConfig where
  workspace_id : String
  name : String
  mode : String
  ids : List (String × String)
  thresholds : List (String × Value)
  routing : List (String × Value)

/-- `JSONConfigStore` (`src/config_store.py`): its file path and the parsed
content of the workspace JSON file. -/
structure ConfigStore where
  path : String
  entries : List (String × WorkspaceConfig)

/-- `JSONConfigStore.load`: the workspace config, or the `KeyError` raised
for an unknown workspace. -/
def loadConfig (store : ConfigStore) (workspace_id : String) :
    Except String WorkspaceConfig :=
  match (store.entries.lookup workspace_id : Option WorkspaceConfig) with
  | none => .error ("KeyError: Workspace '" ++ workspace_id ++ "' not found in "
      ++ store.path)
  | some cfg => .ok cfg

/-- `v.get(k)` where `v` must be a dict (otherwise Python raises
`AttributeError`). -/
def valueGet (v : Value) (k : String) : Except String (Option Value) :=
  match v with
  | vDict d => .ok (dGet d k)
  | _ => .error "AttributeError: get"

/-- `payload.get(f)` for an arbitrary key value `f`: only a string key can
be present in the string-keyed payload dicts. -/
def vGetKey (payload : List (String × Value)) (f : Value) : Option Value :=
  match f with
  | vStr s => dGet payload s
  | _ => none

/-- `payload.get(k) is not None`. -/
def notNone (o : Option Value) : Bool :=
  match o with
  | some vNull => false
  | some _ => true
  | none => false

/-- `GTMEventClassifierAgent.classify` (`src/gtm_event_classifier.py`):
normalize the event type and map it to a category with a confidence. -/
def classify (event_type : String) (payload : List (String × Value)) : Value :=
  let et := pyStrip (pyLower event_type)
  if strContains et "deal" && (strContains et "stage" || truthyO (dGet payload "stage")) then
    vDict [("category", vStr "deal_stage_changed"), ("confidence", vRat (9 / 10))]
  else if strContains et "contact" || strContains et "lead" then
    vDict [("category", vStr "lead_created_or_updated"), ("confidence", vRat (8 / 10))]
  else if strContains et "qa" then
    vDict [("category", vStr "qa_updated"), ("confidence", vRat (9 / 10))]
  else if strContains et "go_live" || strContains et "golive" || strContains et "go-live" then
    vDict [("category", vStr "go_live"), ("confidence", vRat (95 / 100))]
  else if strContains et "weekly" || strContains et "digest" then
    vDict [("category", vStr "scheduled_digest"), ("confidence", vRat (95 / 100))]
  else if strContains et "cleanup" || strContains et "hygiene" then
    vDict [("category", vStr "scheduled_hygiene"), ("confidence", vRat (9 / 10))]
  else
    vDict [("category", vStr "unknown"), ("confidence", vRat (4 / 10)),
           ("raw", vDict [("event_type", vStr event_type)])]

/-- `MIN_REQUIRED_IDS` of `src/schema_discovery_agent.py`, already in the
sorted order that `sorted(list(...))` produces. -/
def minRequiredIds : List String :=
  ["notion_accounts_db", "notion_contacts_db", "notion_deals_db",
   "notion_tasks_db", "slack_ops_channel"]

/-- `SchemaDiscoveryAgent.ensure_workspace_schema`: the sorted required ids
missing from the workspace, with one provisioning action when non-empty. -/
def schemaAgent (store : ConfigStore) (workspace_id : String) :
    Except String Value := do
  let cfg ← loadConfig store workspace_id
  let missing := minRequiredIds.filter (fun k => (cfg.ids.lookup k).isNone)
  let actions : List Value :=
    if missing.isEmpty then [] else
      [vDict [("type", vStr "n8n_webhook"),
              ("webhook", vStr "webhooks/provision_schema"),
              ("payload", vDict [("workspace_id", vStr workspace_id),
                                 ("mode", vStr cfg.mode),
                                 ("missing_ids", vList (missing.map vStr))])]]
  .ok (vDict [("missing_ids", vList (missing.map vStr)),
              ("actions", vList actions),
              ("notes", vStr "Provisioning runs via deterministic n8n workflow.")])

/-- `RoutingSLAAgent.evaluate`: route lead-related events to the high-fit
owner when `icp_score ≥ 70`, else to the default owner. -/
def routingAgent (store : ConfigStore) (workspace_id : String)
    (decisions : List (String × Value)) (payload : List (String × Value)) :
    Except String Value := do
  let cfg ← loadConfig store workspace_id
  let evt := pyOr ((dGet decisions "event").getD vNull) (vDict [])
  let category ← valueGet evt "category"
  let isLead := match category with
    | some (vStr c) => c = "lead_created_or_updated" || c = "unknown"
    | _ => false
  if isLead then
    let icp_score ← pyInt (pyOr ((dGet payload "icp_score").getD vNull) (vInt 0))
    let owner := if icp_score ≥ 70 then (cfg.routing.lookup "high_fit_owner").getD vNull
      else (cfg.routing.lookup "default_owner").getD vNull
    .ok (vDict [("actions", vList
      [vDict [("type", vStr "n8n_webhook"),
              ("webhook", vStr "webhooks/route_and_sla"),
              ("payload", vDict [("workspace_id", vStr workspace_id),
                                 ("owner", owner),
                                 ("icp_score", vInt icp_score),
                                 ("record", vDict payload)])]])])
  else
    .ok (vDict [("actions", vList [])])

/-- The fallback `definition_of_done` table of
`LifecycleEnforcementAgent.evaluate`. -/
def lifecycleDefaultRules : Value :=
  vDict [("poc", vList [vStr "problem", vStr "success_criteria"]),
         ("closed_won", vList [vStr "signed_date", vStr "amount"])]

/-- `LifecycleEnforcementAgent.evaluate`: the required fields for the
payload's declared stage that the payload does not (truthily) carry. -/
def lifecycleAgent (store : ConfigStore) (workspace_id : String)
    (payload : List (String × Value)) : Except String Value := do
  let cfg ← loadConfig store workspace_id
  let rules := (cfg.thresholds.lookup "definition_of_done").getD lifecycleDefaultRules
  let stage := pyLower (pyStr (pyOr (pyOr ((dGet payload "stage").getD vNull)
    ((dGet payload "lifecycle_stage").getD vNull)) (vStr "")))
  let requiredV ← (valueGet rules stage).map (fun o => o.getD (vList []))
  let required ← pyIter requiredV
  let missing := required.filter (fun f => !truthyO (vGetKey payload f))
  let actions : List Value :=
    if missing.isEmpty then [] else
      [vDict [("type", vStr "n8n_webhook"),
              ("webhook", vStr "webhooks/lifecycle_enforce"),
              ("payload", vDict [("workspace_id", vStr workspace_id),
                                 ("stage", vStr stage),
                                 ("missing_fields", vList missing),
                                 ("record", vDict payload)])]]
  .ok (vDict [("stage", vStr stage), ("missing_fields", vList missing),
              ("actions", vList actions)])

/-- `DataHygieneAgent.evaluate`: backfill the domain from the email when the
domain is blank, and flag suspected duplicates. -/
def hygieneAgent (workspace_id : String) (payload : List (String × Value)) :
    Except String Value := do
  let e ← asPyStr (pyOr ((dGet payload "email").getD vNull) (vStr ""))
  let email := pyLower (pyStrip e)
  let d ← asPyStr (pyOr ((dGet payload "domain").getD vNull) (vStr ""))
  let domain := pyLower (pyStrip d)
  let backfill : List Value :=
    if email ≠ "" && domain = "" && strContains email "@" then
      let dom := pyAfterFirst email '@'
      [vDict [("type", vStr "n8n_webhook"),
              ("webhook", vStr "webhooks/hygiene_backfill"),
              ("payload", vDict [("workspace_id", vStr workspace_id),
                                 ("domain", vStr dom),
                                 ("record", vDict payload)])]]
    else []
  let dedupe : List Value :=
    if truthyO (dGet payload "suspected_duplicate") then
      [vDict [("type", vStr "n8n_webhook"),
              ("webhook", vStr "webhooks/dedupe_flag"),
              ("payload", vDict [("workspace_id", vStr workspace_id),
                                 ("record", vDict payload)])]]
    else []
  .ok (vDict [("actions", vList (backfill ++ dedupe))])

/-- `OnboardingGoLiveAgent.evaluate`: onboarding tasks for early stages, QA
metric updates when a score is present, and the go-live handoff. -/
def onboardingAgent (workspace_id : String) (payload : List (String × Value)) :
    Except String Value :=
  let stage := pyLower (pyStr (pyOr ((dGet payload "stage").getD vNull) (vStr "")))
  let tasks : List Value :=
    if stage = "poc" || stage = "implementation" || stage = "onboarding" then
      [vDict [("type", vStr "n8n_webhook"),
              ("webhook", vStr "webhooks/create_onboarding_tasks"),
              ("payload", vDict [("workspace_id", vStr workspace_id),
                                 ("record", vDict payload)])]]
    else []
  let qa : List Value :=
    if notNone (dGet payload "qa_score") then
      [vDict [("type", vStr "n8n_webhook"),
              ("webhook", vStr "webhooks/update_qa_metrics"),
              ("payload", vDict [("workspace_id", vStr workspace_id),
                                 ("record", vDict payload)])]]
    else []
  let golive : List Value :=
    if stage = "go_live" || stage = "golive" || stage = "live" then
      [vDict [("type", vStr "n8n_webhook"),
              ("webhook", vStr "webhooks/go_live_handoff"),
              ("payload", vDict [("workspace_id", vStr workspace_id),
                                 ("record", vDict payload)])]]
    else []
  .ok (vDict [("actions", vList (tasks ++ qa ++ golive))])

/-- `ReportingAttributionAgent.evaluate`: the weekly digest on scheduled
events, and velocity/attribution updates when the payload names a deal. -/
def reportingAgent (workspace_id : String) (event_type : String)
    (payload : List (String × Value)) : Except String Value :=
  let et := pyLower event_type
  let digest : List Value :=
    if strContains et "weekly" || strContains et "digest" then
      [vDict [("type", vStr "n8n_webhook"),
              ("webhook", vStr "webhooks/weekly_digest"),
              ("payload", vDict [("workspace_id", vStr workspace_id)])]]
    else []
  let velocity : List Value :=
    if truthyO (dGet payload "deal_id") || truthyO (dGet payload "stage") then
      [vDict [("type", vStr "n8n_webhook"),
              ("webhook", vStr "webhooks/update_velocity_and_attribution"),
              ("payload", vDict [("workspace_id", vStr workspace_id),
                                 ("record", vDict payload)])]]
    else []
  .ok (vDict [("actions", vList (digest ++ velocity))])

/-- `OpsSelfHealAgent.evaluate`: one ops alert carrying the accumulated
errors and all decisions, only when `errors` is non-empty. -/
def opsAgent (workspace_id : String) (decisions : List (String × Value))
    (errors : List String) : Value :=
  let extra : List Value :=
    if errors.isEmpty then [] else
      [vDict [("type", vStr "n8n_webhook"),
              ("webhook", vStr "webhooks/ops_alert"),
              ("payload", vDict [("workspace_id", vStr workspace_id),
                                 ("errors", vList (errors.map vStr)),
                                 ("decisions", vDict decisions)])]]
  vDict [("actions", vList extra)]

end SDR.GTM

namespace SDR.GTM

open SDR SDR.Value

/-- The `GTMState` TypedDict threaded through the pipeline. -/
structure GTMState where
  workspace_id : String
  event_type : String
  event_payload : List (String × Value)
  decisions : List (String × Value)
  actions : List Value
  approved : Bool
  errors : List String
  timestamp : Nat

/-- `decision.get("actions", [])`, then iterated by `state["actions"].extend`. -/
def decisionActions (d : Value) : Except String (List Value) :=
  match d with
  | vDict entries =>
    match dGet entries "actions" with
    | none => .ok []
    | some v => pyIter v
  | _ => .error "AttributeError: get"

/-- `GTMOrchestrator.classify_event`: write `decisions["event"]`. -/
def classifyStage (st : GTMState) : GTMState :=
  { st with decisions := dSet st.decisions "event" (classify st.event_type st.event_payload) }

/-- `GTMOrchestrator.schema_discovery`: write `decisions["schema"]` and
extend `actions`. -/
def schemaStage (store : ConfigStore) (st : GTMState) : Except String GTMState := do
  let d ← schemaAgent store st.workspace_id
  let acts ← decisionActions d
  .ok { st with decisions := dSet st.decisions "schema" d, actions := st.actions ++ acts }

/-- `GTMOrchestrator.routing_sla`. -/
def routingStage (store : ConfigStore) (st : GTMState) : Except String GTMState := do
  let d ← routingAgent store st.workspace_id st.decisions st.event_payload
  let acts ← decisionActions d
  .ok { st with decisions := dSet st.decisions "routing" d, actions := st.actions ++ acts }

/-- `GTMOrchestrator.lifecycle_enforcement`. -/
def lifecycleStage (store : ConfigStore) (st : GTMState) : Except String GTMState := do
  let d ← lifecycleAgent store st.workspace_id st.event_payload
  let acts ← decisionActions d
  .ok { st with decisions := dSet st.decisions "lifecycle" d, actions := st.actions ++ acts }

/-- `GTMOrchestrator.data_hygiene`. -/
def hygieneStage (st : GTMState) : Except String GTMState := do
  let d ← hygieneAgent st.workspace_id st.event_payload
  let acts ← decisionActions d
  .ok { st with decisions := dSet st.decisions "hygiene" d, actions := st.actions ++ acts }

/-- `GTMOrchestrator.onboarding_go_live`. -/
def onboardingStage (st : GTMState) : Except String GTMState := do
  let d ← onboardingAgent st.workspace_id st.event_payload
  let acts ← decisionActions d
  .ok { st with decisions := dSet st.decisions "onboarding" d, actions := st.actions ++ acts }

/-- `GTMOrchestrator.reporting_attribution`. -/
def reportingStage (st : GTMState) : Except String GTMState := do
  let d ← reportingAgent st.workspace_id st.event_type st.event_payload
  let acts ← decisionActions d
  .ok { st with decisions := dSet st.decisions "reporting" d, actions := st.actions ++ acts }

/-- `GTMOrchestrator.ops_self_heal`. -/
def opsStage (st : GTMState) : Except String GTMState := do
  let d := opsAgent st.workspace_id st.decisions st.errors
  let acts ← decisionActions d
  .ok { st with decisions := dSet st.decisions "ops" d, actions := st.actions ++ acts }

/-- `GTMOrchestrator._needs_onboarding`: branch on the classified category
(`evt.get("category")` raises when `decisions["event"]` is not a dict). -/
def needs_onboarding (st : GTMState) : Except String String := do
  let evt := (dGet st.decisions "event").getD (vDict [])
  let cat ← valueGet evt "category"
  let isOnb := match cat with
    | some (vStr c) => c = "deal_stage_changed" || c = "qa_updated" || c = "go_live"
    | _ => false
  .ok (if isOnb then "onboarding" else "reporting")

/-- The `initial` GTMState built by `handle_event`. -/
def initState (now : Nat) (workspace_id event_type : String)
    (payload : List (String × Value)) : GTMState :=
  { workspace_id := workspace_id, event_type := event_type,
    event_payload := payload, decisions := [], actions := [],
    approved := false, errors := [], timestamp := now }

/-- The straight-line sequential fallback of `GTMOrchestrator.handle_event`
(the `self.graph is None` branch). -/
def handleEventSeq (store : ConfigStore) (now : Nat)
    (workspace_id event_type : String) (payload : List (String × Value)) :
    Except String GTMState := do
  let st := classifyStage (initState now workspace_id event_type payload)
  let st ← schemaStage store st
  let st ← routingStage store st
  let st ← lifecycleStage store st
  let st ← hygieneStage st
  let branch ← needs_onboarding st
  let st ← if branch = "onboarding" then onboardingStage st else .ok st
  let st ← reportingStage st
  let st ← opsStage st
  .ok st

/-- The node table of the compiled `StateGraph` built by
`GTMOrchestrator._build_graph` (one `add_node` per stage). -/
def nodeAction (store : ConfigStore) (node : String) (st : GTMState) :
    Except String GTMState :=
  if node = "classify" then .ok (classifyStage st)
  else if node = "schema" then schemaStage store st
  else if node = "routing" then routingStage store st
  else if node = "lifecycle" then lifecycleStage store st
  else if node = "hygiene" then hygieneStage st
  else if node = "onboarding" then onboardingStage st
  else if node = "reporting" then reportingStage st
  else if node = "ops" then opsStage st
  else .error ("Unknown node: " ++ node)

/-- The edge table of `_build_graph`: the linear `add_edge` calls, the
conditional edge out of `hygiene` through `_needs_onboarding` with mapping
`{"onboarding": "onboarding", "reporting": "reporting"}`, and `ops → END`. -/
def graphNext (node : String) (st : GTMState) : Except String (Option String) :=
  if node = "classify" then .ok (some "schema")
  else if node = "schema" then .ok (some "routing")
  else if node = "routing" then .ok (some "lifecycle")
  else if node = "lifecycle" then .ok (some "hygiene")
  else if node = "hygiene" then do
    let b ← needs_onboarding st
    .ok (some (if b = "onboarding" then "onboarding" else "reporting"))
  else if node = "onboarding" then .ok (some "reporting")
  else if node = "reporting" then .ok (some "ops")
  else .ok none

/-- Modelled from the spec and the LangGraph execution semantics the graph
path of `handle_event` relies on (the library itself is an external
dependency): starting from the entry point, run each node on the threaded
state and follow its (possibly conditional) outgoing edge until `END`,
propagating any exception; the visited nodes are also returned. LangGraph's
default recursion limit plays the role of the fuel. -/
def runGraph (store : ConfigStore) : Nat → String → GTMState →
    List String × Except String GTMState
  | 0, _, _ => ([], .error "GraphRecursionError")
  | fuel + 1, node, st =>
    match nodeAction store node st with
    | .error e => ([node], .error e)
    | .ok st' =>
      match graphNext node st' with
      | .error e => ([node], .error e)
      | .ok none => ([node], .ok st')
      | .ok (some nxt) =>
        let r := runGraph store fuel nxt st'
        (node :: r.1, r.2)

/-- `self.graph.ainvoke(initial)`: the declarative-graph execution path of
`handle_event`. -/
def graphInvoke (store : ConfigStore) (now : Nat)
    (workspace_id event_type : String) (payload : List (String × Value)) :
    Except String GTMState :=
  (runGraph store 25 "classify" (initState now workspace_id event_type payload)).2

/-- The stages the graph path visits, in execution order. -/
def graphTrace (store : ConfigStore) (now : Nat)
    (workspace_id event_type : String) (payload : List (String × Value)) :
    List String :=
  (runGraph store 25 "classify" (initState now workspace_id event_type payload)).1

end SDR.GTM

namespace SDR.Spec

open SDR SDR.Value SDR.GB SDR.GTM

/-! ## Specification-side definitions and concrete fixtures

`variantSpec` renders the spec's wording of the variation walk ("return the
first variation whose cumulative weight exceeds `normalized`, falling back
to the last variation") independently of the source loop, for comparison
with `assignLoop`. The remaining definitions are concrete inputs used by
witnesses and counterexamples. -/

/-- The cumulative weight of the variations up to and including index `i`. -/
def cumWeight (variations : List Variation) (i : Nat) : ℚ :=
  ((variations.take (i + 1)).map Variation.weight).sum

/-- The index of the first variation whose cumulative weight strictly
exceeds `normalized`. -/
def firstExceeding (variations : List Variation) (normalized : ℚ) : Option Nat :=
  (List.range variations.length).find? (fun i => normalized < cumWeight variations i)

/-- The spec's description of the assignment walk: the key of the first
variation whose cumulative weight exceeds `normalized`, else the last
variation's key. -/
def variantSpec (variations : List Variation) (h : variations ≠ [])
    (normalized : ℚ) : String :=
  match firstExceeding variations normalized with
  | some i => (variations.getD i ⟨"", 0⟩).key
  | none => (variations.getLast h).key

/-- A running 50/50 experiment at 50% traffic (the §8 scenario). -/
def demoExperiment : Experiment :=
  ⟨"exp1", ExperimentStatus.running, [⟨"control", 50⟩, ⟨"treatment", 50⟩], 50⟩

/-- The same experiment, still in draft. -/
def draftExperiment : Experiment :=
  ⟨"exp1", ExperimentStatus.draft, [⟨"control", 50⟩, ⟨"treatment", 50⟩], 50⟩

/-- A targeting rule: `plan equals "pro"` overriding the flag to on. -/
def demoRule : Rule := ⟨some "plan", "equals", vStr "pro", some true⟩

/-- A disabled flag carrying `demoRule`, never evaluated. -/
def demoFlag : FeatureFlag := ⟨"enable_beta", false, [demoRule], none⟩

/-- A registry holding only `demoFlag`, with an empty evaluation log. -/
def demoClient : ClientState := ⟨[("enable_beta", demoFlag)], []⟩

/-- A fully provisioned demo workspace. -/
def demoWorkspace : WorkspaceConfig :=
  { workspace_id := "ws1", name := "Acme", mode := "notion_first",
    ids := [("notion_contacts_db", "c1"), ("notion_accounts_db", "a1"),
            ("notion_deals_db", "d1"), ("notion_tasks_db", "t1"),
            ("slack_ops_channel", "s1")],
    thresholds := [],
    routing := [("default_owner", vStr "alice"), ("high_fit_owner", vStr "bob")] }

/-- A config store holding only `demoWorkspace` under key `"ws1"`. -/
def demoStore : ConfigStore := ⟨"config/workspaces.json", [("ws1", demoWorkspace)]⟩

/-- A config store whose workspace file has no entries. -/
def emptyStore : ConfigStore := ⟨"config/workspaces.json", []⟩

/-- The full stage order of a run that takes the onboarding branch. -/
def onboardingPath : List String :=
  ["classify", "schema", "routing", "lifecycle", "hygiene", "onboarding",
   "reporting", "ops"]

end SDR.Spec

namespace SDR.Thm

open SDR SDR.Value SDR.GB SDR.Spec

/-! ## Shared lemmas -/

/-- The source's accumulator walk agrees with a prefix-sum description:
it returns the key at the first index whose cumulative weight (shifted by
the starting accumulator) exceeds the normalized bucket. -/
theorem assignLoop_eq (variations : List Variation) (c n : ℚ) :
    assignLoop variations c n =
      ((List.range variations.length).find?
        (fun i => n < c + cumWeight variations i)).map
        (fun i => (variations.getD i ⟨"", 0⟩).key) := by
  induction variations generalizing c with
  | nil => simp [assignLoop]
  | cons v rest ih =>
    have hc0 : cumWeight (v :: rest) 0 = v.weight := by simp [cumWeight]
    have hshift : ∀ i : Nat,
        cumWeight (v :: rest) (i + 1) = v.weight + cumWeight rest i := by
      intro i
      simp [cumWeight, List.take_succ_cons]
    rw [show assignLoop (v :: rest) c n
        = if n < c + v.weight then some v.key else assignLoop rest (c + v.weight) n
      from rfl]
    rw [List.length_cons, List.range_succ_eq_map]
    by_cases h : n < c + v.weight
    · rw [if_pos h, List.find?_cons_of_pos _ (by simp [hc0, h])]
      rfl
    · rw [if_neg h, List.find?_cons_of_neg _ (by simp [hc0, h]), ih (c + v.weight)]
      rw [List.find?_map Nat.succ (List.range rest.length), Option.map_map]
      have hp : (fun i => decide (n < c + v.weight + cumWeight rest i))
          = ((fun i => decide (n < c + cumWeight (v :: rest) i)) ∘ Nat.succ) := by
        funext i
        simp [Function.comp, hshift, add_assoc]
      rw [← hp]
      congr 1

/-- An empty attribute mapping matches no targeting rule (`attr_key not in
attributes` short-circuits before any operator logic, so no `TypeError`
can arise either). -/
theorem evaluate_rule_empty (rule : Rule) : evaluate_rule rule [] = .ok false := by
  unfold evaluate_rule
  by_cases h : rule.attr.getD "" = ""
  · simp [h]
  · simp [h, dGet]

/-- Hence the rule loop finds no match on an empty attribute mapping. -/
theorem rulesFirstMatch_empty (rules : List Rule) (enabled : Bool) :
    rulesFirstMatch rules [] enabled = .ok none := by
  induction rules with
  | nil => rfl
  | cons r rest ih => simp [rulesFirstMatch, evaluate_rule_empty, ih]

end SDR.Thm

namespace SDR.Thm

open SDR SDR.Value SDR.GB SDR.Spec

/-- C5: `get_experiment_variant` is deterministic — it depends only on the
experiment registered under the key (no stored assignment state, so the
result is reproducible across calls and process restarts) — and it returns
a variant only while the experiment's status is `running`: a missing
experiment or one in draft/stopped/archived status always yields `None`. -/
theorem experiment_variant_deterministic_and_status_gated
    (exps exps' : List (String × Experiment)) (key user_id : String) :
    (exps.lookup key = exps'.lookup key →
      get_experiment_variant exps key user_id =
        get_experiment_variant exps' key user_id) ∧
    (∀ e, exps.lookup key = some e → e.status ≠ ExperimentStatus.running →
      get_experiment_variant exps key user_id = none) ∧
    (exps.lookup key = none → get_experiment_variant exps key user_id = none) := by
  refine ⟨fun h => ?_, fun e he hs => ?_, fun h => ?_⟩
  · unfold get_experiment_variant
    rw [h]
  · simp only [get_experiment_variant, he]
    rw [if_pos hs]
  · simp only [get_experiment_variant, h]

/-- Witness for C5 at a concrete input: the draft experiment yields `None`. -/
theorem experiment_variant_deterministic_and_status_gated_witness :
    get_experiment_variant [("exp1", draftExperiment)] "exp1" "user-1" = none :=
  (experiment_variant_deterministic_and_status_gated
    [("exp1", draftExperiment)] [("exp1", draftExperiment)] "exp1" "user-1").2.1
    draftExperiment rfl (by decide)

/-- C6: for a running experiment, the bucket is the MD5-derived hash of
`key ++ ":" ++ user_id` mod 100; the result is `None` exactly when the
bucket reaches the traffic percentage, and otherwise it is the first
variation whose cumulative weight exceeds the normalized bucket, the last
variation serving as the fallback. -/
theorem experiment_bucketing_and_weight_walk
    (exps : List (String × Experiment)) (key user_id : String) (exp : Experiment)
    (hlk : exps.lookup key = some exp)
    (hst : exp.status = ExperimentStatus.running)
    (hne : exp.variations ≠ []) :
    (get_experiment_variant exps key user_id = none ↔
      exp.traffic_percent ≤ (bucketOf key user_id : ℚ)) ∧
    ((bucketOf key user_id : ℚ) < exp.traffic_percent →
      get_experiment_variant exps key user_id =
        some (variantSpec exp.variations hne
          (((bucketOf key user_id : ℚ) / exp.traffic_percent) * 100))) := by
  have hrun : ¬exp.status ≠ ExperimentStatus.running := by simp [hst]
  simp only [get_experiment_variant, hlk]
  rw [if_neg hrun]
  by_cases hb : (bucketOf key user_id : ℚ) ≥ exp.traffic_percent
  · rw [if_pos hb]
    exact ⟨⟨fun _ => hb, fun _ => rfl⟩, fun hlt => absurd hb (not_le.mpr hlt)⟩
  · rw [if_neg hb]
    push_neg at hb
    have ha : assignLoop exp.variations 0
        (((bucketOf key user_id : ℚ) / exp.traffic_percent) * 100)
        = (firstExceeding exp.variations
            (((bucketOf key user_id : ℚ) / exp.traffic_percent) * 100)).map
            (fun i => (exp.variations.getD i ⟨"", 0⟩).key) := by
      rw [assignLoop_eq]
      unfold firstExceeding
      congr 2
      funext i
      rw [zero_add]
    rw [ha]
    cases hfe : firstExceeding exp.variations
        (((bucketOf key user_id : ℚ) / exp.traffic_percent) * 100) with
    | some i =>
      refine ⟨⟨fun h => by simp at h, fun h => absurd h (not_le.mpr hb)⟩, fun _ => ?_⟩
      simp [variantSpec, hfe]
    | none =>
      rw [List.getLast?_eq_getLast _ hne]
      refine ⟨⟨fun h => by simp at h, fun h => absurd h (not_le.mpr hb)⟩, fun _ => ?_⟩
      simp [variantSpec, hfe]

set_option maxRecDepth 400000 in
/-- Witness for C6: in the §8 scenario experiment, user `user-42` hashes to
bucket 71, which is outside the 50% traffic allocation, so the assignment
is `None`; user `user-1` hashes to bucket 7 and is assigned. -/
theorem experiment_bucketing_and_weight_walk_witness :
    bucketOf "exp1" "user-42" = 71 ∧
    get_experiment_variant [("exp1", demoExperiment)] "exp1" "user-42" = none ∧
    get_experiment_variant [("exp1", demoExperiment)] "exp1" "user-1" =
      some "control" := by
  have hb : bucketOf "exp1" "user-42" = 71 := by decide
  have hb1 : bucketOf "exp1" "user-1" = 7 := by decide
  refine ⟨hb, ?_, ?_⟩
  · exact (experiment_bucketing_and_weight_walk [("exp1", demoExperiment)]
      "exp1" "user-42" demoExperiment rfl rfl
      (by simp [demoExperiment])).1.mpr
      (by rw [hb]; norm_num [demoExperiment])
  · have h := (experiment_bucketing_and_weight_walk [("exp1", demoExperiment)]
      "exp1" "user-1" demoExperiment rfl rfl
      (by simp [demoExperiment])).2
      (by rw [hb1]; norm_num [demoExperiment])
    rw [h, hb1]
    have hfx : firstExceeding demoExperiment.variations
        (((7 : Nat) : ℚ) / demoExperiment.traffic_percent * 100) = some 0 := by
      unfold firstExceeding
      rw [show List.range demoExperiment.variations.length = [0, 1] from rfl]
      rw [List.find?_cons_of_pos]
      simp only [cumWeight, demoExperiment, List.take, List.map, List.sum_cons,
        List.sum_nil, decide_eq_true_eq]
      norm_num
    unfold variantSpec
    rw [hfx]
    simp [demoExperiment]

end SDR.Thm

namespace SDR.Thm

open SDR SDR.Value SDR.GB SDR.Spec

/-- C7: for a known flag and an attribute mapping, `is_on` evaluates the
targeting rules in order (first match wins), returns the matched rule's
override — or the base `enabled` when no rule matches — and stamps the
flag's `last_evaluated` with the current time, appending one entry to the
evaluation log.  (The hypothesis `rulesFirstMatch ... = .ok r` says rule
evaluation completes without a Python `TypeError`; the `feature.rules and
attributes` shortcut in the source is equivalent to running the loop,
since no rule can match an empty attribute mapping.) -/
theorem is_on_first_match_and_timestamps
    (st : ClientState) (now : Nat) (key : String)
    (attrs : List (String × Value)) (f : FeatureFlag) (r : Option Bool)
    (hf : st.features.lookup key = some f)
    (hr : rulesFirstMatch f.rules attrs f.enabled = .ok r) :
    is_on st now key (some attrs) =
      (.ok (r.getD f.enabled),
       ⟨setFeature st.features key { f with last_evaluated := some now },
        st.evalLog ++ [⟨now, key, f.enabled, some attrs⟩]⟩) := by
  simp only [is_on, hf, log_evaluation]
  by_cases hrules : f.rules.isEmpty
  · have : f.rules = [] := List.isEmpty_iff.mp hrules
    rw [this] at hr
    have : r = none := by
      simpa [rulesFirstMatch] using hr.symm
    simp [hrules, this]
  · by_cases hattrs : attrs.isEmpty
    · have : attrs = [] := List.isEmpty_iff.mp hattrs
      subst this
      rw [rulesFirstMatch_empty] at hr
      have : r = none := by simpa using hr.symm
      simp [hrules, hattrs, this]
    · simp only [hrules, hattrs, Bool.not_false, Bool.and_self, if_true,
        Bool.not_true, Bool.and_false, Option.getD_some]
      rw [hr]
      cases r with
      | none => rfl
      | some v => rfl

/-- Witness for C7: the `plan equals "pro"` rule of `demoFlag` matches, so
the disabled flag evaluates to `true`, its `last_evaluated` is stamped,
and the evaluation is logged. -/
theorem is_on_first_match_and_timestamps_witness :
    is_on demoClient 1000 "enable_beta" (some [("plan", vStr "pro")]) =
      (.ok true,
       ⟨[("enable_beta", ⟨"enable_beta", false, [demoRule], some 1000⟩)],
        [⟨1000, "enable_beta", false, some [("plan", vStr "pro")]⟩]⟩) :=
  is_on_first_match_and_timestamps demoClient 1000 "enable_beta"
    [("plan", vStr "pro")] demoFlag (some true) rfl rfl

/-- C10: `is_on` on an unregistered key returns `False` and leaves the
client state — every flag's `last_evaluated` and the evaluation log —
exactly as it was. -/
theorem is_on_unknown_key_pure
    (st : ClientState) (now : Nat) (key : String)
    (attrs : Option (List (String × Value)))
    (h : st.features.lookup key = none) :
    is_on st now key attrs = (.ok false, st) := by
  simp only [is_on, h]

/-- Witness for C10 at a concrete input. -/
theorem is_on_unknown_key_pure_witness :
    is_on demoClient 1000 "enable_missing" none = (.ok false, demoClient) :=
  is_on_unknown_key_pure demoClient 1000 "enable_missing" none rfl

/-- C8 counterexample: with `days = 1`, a flag last evaluated 100000
seconds ago — more than one day (86400 seconds) in the past — is *not*
returned by `get_stale_flags`, because `timedelta.days` floor-divides the
elapsed time to whole days (`100000 / 86400 = 1`, and `1 > 1` fails). -/
theorem get_stale_flags_truncates_to_whole_days :
    (200000 - 100000 > 1 * 86400) ∧
    get_stale_flags ⟨[("flag_a", ⟨"flag_a", true, [], some 100000⟩)], []⟩ 1 200000
      = [] := by
  constructor
  · norm_num
  · rfl

/-- C8 (amended): `get_stale_flags N` returns exactly the flags whose
`last_evaluated` is null or whose elapsed time, floor-divided to whole
days, strictly exceeds `N` (i.e. at least `N + 1` whole days old); a flag
evaluated within the last `N` days is never returned. -/
theorem get_stale_flags_characterization
    (st : ClientState) (days now : Nat) (f : FeatureFlag) :
    (f ∈ get_stale_flags st days now ↔
      f ∈ st.features.map Prod.snd ∧
        (f.last_evaluated = none ∨
          ∃ t, f.last_evaluated = some t ∧ (now - t) / 86400 > days)) ∧
    (∀ t, f.last_evaluated = some t → now - t < days * 86400 →
      f ∉ get_stale_flags st days now) := by
  constructor
  · rw [get_stale_flags, List.mem_filter]
    constructor
    · rintro ⟨hm, hs⟩
      refine ⟨hm, ?_⟩
      unfold is_stale at hs
      cases hle : f.last_evaluated with
      | none => exact Or.inl rfl
      | some t =>
        rw [hle] at hs
        exact Or.inr ⟨t, rfl, by simpa using hs⟩
    · rintro ⟨hm, hs⟩
      refine ⟨hm, ?_⟩
      unfold is_stale
      rcases hs with h | ⟨t, ht, hd⟩
      · rw [h]
      · rw [ht]
        simpa using hd
  · intro t ht hlt
    rw [get_stale_flags, List.mem_filter]
    rintro ⟨-, hs⟩
    unfold is_stale at hs
    rw [ht] at hs
    simp at hs
    omega

/-- Witness for C8 (amended): a flag evaluated 50000 seconds ago is not
stale for `days = 1`. -/
theorem get_stale_flags_characterization_witness :
    (⟨"k", true, [], some 150000⟩ : FeatureFlag) ∉
      get_stale_flags ⟨[("k", ⟨"k", true, [], some 150000⟩)], []⟩ 1 200000 :=
  (get_stale_flags_characterization
    ⟨[("k", ⟨"k", true, [], some 150000⟩)], []⟩ 1 200000
    ⟨"k", true, [], some 150000⟩).2 150000 rfl (by norm_num)

end SDR.Thm

namespace SDR.Thm

open SDR SDR.Auction

/-- Rounding half to even moves a value up by at most one half. -/
theorem roundHalfEven_le (q : ℚ) : (roundHalfEven q : ℚ) ≤ q + 1 / 2 := by
  have hf : (⌊q⌋ : ℚ) ≤ q := Int.floor_le q
  simp only [roundHalfEven]
  split_ifs with h1 h2 h3 <;> push_cast <;> linarith

/-- Python's `round(x, 4)` moves a value up by at most `5·10⁻⁵`. -/
theorem pyRound4_le (q : ℚ) : pyRound4 q ≤ q + 1 / 20000 := by
  unfold pyRound4
  have h := roundHalfEven_le (q * 10000)
  linarith

/-- The greedy loop's invariant: the accumulated cost of accepted agents
never exceeds the budget. -/
theorem greedy_total_le (bids : List (String × ℚ)) (budget : ℚ)
    (l : List (String × ℚ)) (acc : List String × ℚ) (hacc : acc.2 ≤ budget) :
    (l.foldl (greedyStep bids budget) acc).2 ≤ budget := by
  induction l generalizing acc with
  | nil => simpa using hacc
  | cons p rest ih =>
    rw [List.foldl_cons]
    apply ih
    simp only [greedyStep]
    split_ifs with h
    · simpa using h
    · exact hacc

/-- Membership in a stable descending insertion. -/
theorem mem_insertDesc {p q : String × ℚ} {l : List (String × ℚ)}
    (hm : p ∈ insertDesc q l) : p = q ∨ p ∈ l := by
  induction l with
  | nil => simpa [insertDesc] using hm
  | cons x rest ih =>
    unfold insertDesc at hm
    split_ifs at hm with h
    · rcases List.mem_cons.mp hm with h1 | h2
      · exact Or.inr (by simp [h1])
      · rcases ih h2 with h3 | h4
        · exact Or.inl h3
        · exact Or.inr (List.mem_cons_of_mem _ h4)
    · rcases List.mem_cons.mp hm with h1 | h2
      · exact Or.inl h1
      · exact Or.inr h2

/-- Folding stable insertions only rearranges the accumulator and the
input. -/
theorem mem_foldl_insertDesc {p : String × ℚ} :
    ∀ (l acc : List (String × ℚ)),
      p ∈ l.foldl (fun a q => insertDesc q a) acc → p ∈ acc ∨ p ∈ l := by
  intro l
  induction l with
  | nil =>
    intro acc h
    exact Or.inl h
  | cons x rest ih =>
    intro acc h
    rw [List.foldl_cons] at h
    rcases ih (insertDesc x acc) h with h1 | h2
    · rcases mem_insertDesc h1 with h3 | h4
      · exact Or.inr (by simp [h3])
      · exact Or.inl h4
    · exact Or.inr (List.mem_cons_of_mem _ h2)

/-- The stable sort does not invent entries. -/
theorem mem_sortDesc {p : String × ℚ} {l : List (String × ℚ)}
    (hm : p ∈ sortDesc l) : p ∈ l := by
  rcases mem_foldl_insertDesc l [] hm with h1 | h2
  · simp at h1
  · exact h2

/-- A key occurring in an association list is found by `lookup`, and the
found cost is one of the list's entries. -/
theorem lookup_key_mem {l : List (String × ℚ)} {a : String}
    (h : a ∈ l.map Prod.fst) :
    ∃ c, l.lookup a = some c ∧ (a, c) ∈ l := by
  induction l with
  | nil => simp at h
  | cons x rest ih =>
    by_cases he : a = x.1
    · refine ⟨x.2, ?_, by simp [he]⟩
      simp [List.lookup, he]
    · have h2 : a ∈ rest.map Prod.fst := by
        rcases List.mem_map.mp h with ⟨q, hq, hxq⟩
        rcases List.mem_cons.mp hq with h3 | h4
        · exact absurd (hxq ▸ h3 ▸ rfl) he
        · exact List.mem_map.mpr ⟨q, h4, hxq⟩
      obtain ⟨c, hc, hmem⟩ := ih h2
      refine ⟨c, ?_, List.mem_cons_of_mem _ hmem⟩
      have hbe : (a == x.1) = false := beq_eq_false_iff_ne.mpr he
      simp [List.lookup, hbe, hc]

/-- `round(0, 4) = 0`. -/
theorem pyRound4_zero : pyRound4 0 = 0 := by
  unfold pyRound4 roundHalfEven
  norm_num

end SDR.Thm

namespace SDR.Thm

open SDR SDR.Auction

/-- C3 counterexample: the claim "total_cost ≤ B for every budget B ≥ 0"
fails as stated, because the returned `total_cost` is `round(total, 4)`:
with the single bid `a ↦ 0.00006` and budget `B = 0.00006`, the greedy loop
accepts `a` (0.00006 ≤ B), but the response reports
`round(0.00006, 4) = 0.0001 > B`. -/
theorem run_auction_rounding_exceeds_budget :
    (run_auction [("a", 6 / 100000)] [("a", 50)] (6 / 100000)).total_cost
        = 1 / 10000 ∧
    ¬(run_auction [("a", 6 / 100000)] [("a", 50)] (6 / 100000)).total_cost
        ≤ 6 / 100000 := by
  have hsel : auctionSelect [("a", 6 / 100000)] [("a", 50)] (6 / 100000)
      = (["a"], 6 / 100000) := by
    simp only [auctionSelect, valueRatios, sortDesc, insertDesc, greedyStep,
      List.map, List.foldl, List.lookup]
    norm_num
  have hround : pyRound4 (6 / 100000) = 1 / 10000 := by
    have hfl : ⌊(6 : ℚ) / 100000 * 10000⌋ = 0 := by
      rw [show (6 : ℚ) / 100000 * 10000 = 3 / 5 by norm_num]
      norm_num [Int.floor_eq_iff]
    simp only [pyRound4, roundHalfEven, hfl]
    norm_num
  have hcost : (run_auction [("a", 6 / 100000)] [("a", 50)]
      (6 / 100000)).total_cost = 1 / 10000 := by
    simp only [run_auction, hsel]
    exact hround
  exact ⟨hcost, by rw [hcost]; norm_num⟩

/-- C3 (amended): the *unrounded* accepted cost never exceeds the budget
(for budgets `B ≥ 0`), and the reported `total_cost` — that sum rounded to
four decimal places — exceeds the budget by at most `5·10⁻⁵`. -/
theorem run_auction_budget_bound (bids quality : List (String × ℚ))
    (budget : ℚ) (hb : 0 ≤ budget) :
    (auctionSelect bids quality budget).2 ≤ budget ∧
    (run_auction bids quality budget).total_cost ≤ budget + 1 / 20000 := by
  have h1 : (auctionSelect bids quality budget).2 ≤ budget :=
    greedy_total_le bids budget _ ([], 0) (by simpa using hb)
  refine ⟨h1, ?_⟩
  have h2 := pyRound4_le (auctionSelect bids quality budget).2
  simp only [run_auction]
  linarith

/-- Witness for C3 (amended) at the §8 scenario auction. -/
theorem run_auction_budget_bound_witness :
    (auctionSelect [("A", 5 / 100), ("B", 10 / 100), ("C", 20 / 100)]
        [("A", 90), ("B", 95), ("C", 50)] (20 / 100)).2 ≤ 20 / 100 ∧
    (run_auction [("A", 5 / 100), ("B", 10 / 100), ("C", 20 / 100)]
        [("A", 90), ("B", 95), ("C", 50)] (20 / 100)).total_cost
      ≤ 20 / 100 + 1 / 20000 :=
  run_auction_budget_bound _ _ _ (by norm_num)

/-- C4 counterexample: with budget 0 and two zero-cost bids, the greedy
condition `0 + 0 ≤ 0` accepts both agents, so the selection is *not* empty
and — two agents being the quorum — consensus is even reached. -/
theorem run_auction_zero_budget_accepts_free_bids :
    (run_auction [("a", 0), ("b", 0)] [] 0).selected_agents = ["a", "b"] ∧
    (run_auction [("a", 0), ("b", 0)] [] 0).total_cost = 0 ∧
    (run_auction [("a", 0), ("b", 0)] [] 0).consensus_reached = true := by
  have hsel : auctionSelect [("a", 0), ("b", 0)] [] 0 = (["a", "b"], 0) := by
    simp only [auctionSelect, valueRatios, sortDesc, insertDesc, greedyStep,
      List.map, List.foldl, List.lookup]
    norm_num
    simp
  refine ⟨?_, ?_, ?_⟩ <;> simp [run_auction, hsel, pyRound4_zero]

/-- C4 (amended): with budget 0, *positive-cost* bids are all rejected:
the selection is empty, the total cost is 0, and consensus is not
reached. (Bids with cost 0 — and only those — escape this, as the
counterexample shows.) -/
theorem run_auction_zero_budget_positive_costs
    (bids quality : List (String × ℚ)) (hpos : ∀ p ∈ bids, 0 < p.2) :
    (run_auction bids quality 0).selected_agents = [] ∧
    (run_auction bids quality 0).total_cost = 0 ∧
    (run_auction bids quality 0).consensus_reached = false := by
  have hkeys : ∀ p ∈ sortDesc (valueRatios bids quality),
      (p : String × ℚ).1 ∈ bids.map Prod.fst := by
    intro p hp
    have hm := mem_sortDesc hp
    rcases List.mem_map.mp hm with ⟨q, hq, hxq⟩
    exact List.mem_map.mpr ⟨q, hq, by rw [← hxq]⟩
  have hfold : ∀ l : List (String × ℚ),
      (∀ p ∈ l, (p : String × ℚ).1 ∈ bids.map Prod.fst) →
      l.foldl (greedyStep bids 0) ([], 0) = ([], 0) := by
    intro l
    induction l with
    | nil => intro _; rfl
    | cons p rest ih =>
      intro hl
      rw [List.foldl_cons]
      have hstep : greedyStep bids 0 ([], 0) p = ([], 0) := by
        obtain ⟨c, hc, hmem⟩ := lookup_key_mem (hl p (by simp))
        have hcpos : 0 < c := hpos (p.1, c) hmem
        simp only [greedyStep, hc]
        rw [if_neg (by simpa using not_le.mpr hcpos)]
      rw [hstep]
      exact ih (fun q hq => hl q (List.mem_cons_of_mem _ hq))
  have hsel : auctionSelect bids quality 0 = ([], 0) := by
    unfold auctionSelect
    exact hfold _ hkeys
  refine ⟨?_, ?_, ?_⟩ <;> simp [run_auction, hsel, pyRound4_zero]

/-- Witness for C4 (amended): one positive-cost bid at budget 0. -/
theorem run_auction_zero_budget_positive_costs_witness :
    (run_auction [("x", 1 / 10)] [] 0).selected_agents = [] ∧
    (run_auction [("x", 1 / 10)] [] 0).total_cost = 0 ∧
    (run_auction [("x", 1 / 10)] [] 0).consensus_reached = false :=
  run_auction_zero_budget_positive_costs [("x", 1 / 10)] []
    (by intro p hp; simp at hp; rw [hp]; norm_num)

end SDR.Thm

namespace SDR.Thm

open SDR SDR.Value SDR.GTM SDR.Spec

/-- Destructuring a successful `Except` bind. -/
theorem except_bind_ok {α β : Type} {x : Except String α}
    {f : α → Except String β} {b : β} :
    x >>= f = Except.ok b ↔ ∃ a, x = Except.ok a ∧ f a = Except.ok b := by
  cases x with
  | error e => simp [Bind.bind, Except.bind]
  | ok a => simp [Bind.bind, Except.bind]

/-- `bind` on an `ok`. -/
theorem ebind_ok {α β : Type} (a : α) (f : α → Except String β) :
    (Except.ok a >>= f) = f a := rfl

/-- `bind` on an `error`. -/
theorem ebind_err {α β : Type} (e : String) (f : α → Except String β) :
    ((Except.error e : Except String α) >>= f) = Except.error e := rfl

/-- Reading back a just-written key. -/
theorem dGet_dSet_self (d : List (String × Value)) (k : String) (v : Value) :
    dGet (dSet d k v) k = some v := by
  induction d with
  | nil => simp [dSet, dGet]
  | cons x rest ih =>
    by_cases h : x.1 = k
    · simp [dSet, dGet, h]
    · simp [dSet, dGet, h, ih]

/-- Writing one key does not disturb another. -/
theorem dGet_dSet_ne (d : List (String × Value)) (k k' : String) (v : Value)
    (h : k ≠ k') : dGet (dSet d k v) k' = dGet d k' := by
  induction d with
  | nil => simp [dSet, dGet, h]
  | cons x rest ih =>
    by_cases hx : x.1 = k
    · simp [dSet, dGet, hx, h]
    · simp [dSet, dGet, hx, ih]

/-- What a successful agent-backed stage looks like: the returned state is
the input with one decision written and the action list extended. -/
theorem stage_ok_shape {st st' : GTMState} {name : String}
    {agent : Except String Value}
    (h : (do
      let d ← agent
      let acts ← decisionActions d
      Except.ok { st with decisions := dSet st.decisions name d,
                          actions := st.actions ++ acts }) = Except.ok st') :
    ∃ d acts, agent = Except.ok d ∧ decisionActions d = Except.ok acts ∧
      st' = { st with decisions := dSet st.decisions name d,
                      actions := st.actions ++ acts } := by
  rw [except_bind_ok] at h
  obtain ⟨d, hd, h⟩ := h
  rw [except_bind_ok] at h
  obtain ⟨acts, ha, h⟩ := h
  exact ⟨d, acts, hd, ha, (Except.ok.inj h).symm⟩

/-- A successful `schemaStage` preserves `errors` and the `"event"`
decision. -/
theorem schemaStage_ok {store : ConfigStore} {st st' : GTMState}
    (h : schemaStage store st = Except.ok st') :
    st'.errors = st.errors ∧
    dGet st'.decisions "event" = dGet st.decisions "event" := by
  obtain ⟨d, acts, -, -, h⟩ := stage_ok_shape h
  subst h
  exact ⟨rfl, dGet_dSet_ne _ _ _ _ (by decide)⟩

/-- A successful `routingStage` preserves `errors` and the `"event"`
decision. -/
theorem routingStage_ok {store : ConfigStore} {st st' : GTMState}
    (h : routingStage store st = Except.ok st') :
    st'.errors = st.errors ∧
    dGet st'.decisions "event" = dGet st.decisions "event" := by
  obtain ⟨d, acts, -, -, h⟩ := stage_ok_shape h
  subst h
  exact ⟨rfl, dGet_dSet_ne _ _ _ _ (by decide)⟩

/-- A successful `lifecycleStage` preserves `errors` and the `"event"`
decision. -/
theorem lifecycleStage_ok {store : ConfigStore} {st st' : GTMState}
    (h : lifecycleStage store st = Except.ok st') :
    st'.errors = st.errors ∧
    dGet st'.decisions "event" = dGet st.decisions "event" := by
  obtain ⟨d, acts, -, -, h⟩ := stage_ok_shape h
  subst h
  exact ⟨rfl, dGet_dSet_ne _ _ _ _ (by decide)⟩

/-- A successful `hygieneStage` preserves `errors` and the `"event"`
decision. -/
theorem hygieneStage_ok {st st' : GTMState}
    (h : hygieneStage st = Except.ok st') :
    st'.errors = st.errors ∧
    dGet st'.decisions "event" = dGet st.decisions "event" := by
  obtain ⟨d, acts, -, -, h⟩ := stage_ok_shape h
  subst h
  exact ⟨rfl, dGet_dSet_ne _ _ _ _ (by decide)⟩

/-- A successful `onboardingStage` preserves `errors`. -/
theorem onboardingStage_ok {st st' : GTMState}
    (h : onboardingStage st = Except.ok st') : st'.errors = st.errors := by
  obtain ⟨d, acts, -, -, h⟩ := stage_ok_shape h
  subst h
  rfl

/-- A successful `reportingStage` preserves `errors`. -/
theorem reportingStage_ok {st st' : GTMState}
    (h : reportingStage st = Except.ok st') : st'.errors = st.errors := by
  obtain ⟨d, acts, -, -, h⟩ := stage_ok_shape h
  subst h
  rfl

/-- A successful `opsStage` preserves `errors`. -/
theorem opsStage_ok {st st' : GTMState}
    (h : opsStage st = Except.ok st') : st'.errors = st.errors := by
  unfold opsStage at h
  rw [except_bind_ok] at h
  obtain ⟨acts, -, h⟩ := h
  rw [← Except.ok.inj h]

end SDR.Thm

namespace SDR.Thm

open SDR SDR.Value SDR.GTM SDR.Spec

/-- One graph step at `classify` (which never raises). -/
theorem runGraph_step_classify (store : ConfigStore) (n : Nat) (st : GTMState) :
    runGraph store (Nat.succ n) "classify" st =
      (("classify" :: (runGraph store n "schema" (classifyStage st)).1),
        (runGraph store n "schema" (classifyStage st)).2) := by
  simp [runGraph, nodeAction, graphNext]

/-- One graph step at `schema`. -/
theorem runGraph_step_schema (store : ConfigStore) (n : Nat) (st : GTMState) :
    runGraph store (Nat.succ n) "schema" st =
      match schemaStage store st with
      | .error e => (["schema"], .error e)
      | .ok st' => (("schema" :: (runGraph store n "routing" st').1),
          (runGraph store n "routing" st').2) := by
  cases h : schemaStage store st with
  | error e => simp [runGraph, nodeAction, graphNext, h]
  | ok st1 => simp [runGraph, nodeAction, graphNext, h]

/-- One graph step at `routing`. -/
theorem runGraph_step_routing (store : ConfigStore) (n : Nat) (st : GTMState) :
    runGraph store (Nat.succ n) "routing" st =
      match routingStage store st with
      | .error e => (["routing"], .error e)
      | .ok st' => (("routing" :: (runGraph store n "lifecycle" st').1),
          (runGraph store n "lifecycle" st').2) := by
  cases h : routingStage store st with
  | error e => simp [runGraph, nodeAction, graphNext, h]
  | ok st1 => simp [runGraph, nodeAction, graphNext, h]

/-- One graph step at `lifecycle`. -/
theorem runGraph_step_lifecycle (store : ConfigStore) (n : Nat) (st : GTMState) :
    runGraph store (Nat.succ n) "lifecycle" st =
      match lifecycleStage store st with
      | .error e => (["lifecycle"], .error e)
      | .ok st' => (("lifecycle" :: (runGraph store n "hygiene" st').1),
          (runGraph store n "hygiene" st').2) := by
  cases h : lifecycleStage store st with
  | error e => simp [runGraph, nodeAction, graphNext, h]
  | ok st1 => simp [runGraph, nodeAction, graphNext, h]

/-- One graph step at `hygiene`, including the conditional edge through
`_needs_onboarding`. -/
theorem runGraph_step_hygiene (store : ConfigStore) (n : Nat) (st : GTMState) :
    runGraph store (Nat.succ n) "hygiene" st =
      match hygieneStage st with
      | .error e => (["hygiene"], .error e)
      | .ok st' =>
        match needs_onboarding st' with
        | .error e => (["hygiene"], .error e)
        | .ok b =>
          (("hygiene" :: (runGraph store n
              (if b = "onboarding" then "onboarding" else "reporting") st').1),
            (runGraph store n
              (if b = "onboarding" then "onboarding" else "reporting") st').2) := by
  cases h : hygieneStage st with
  | error e => simp [runGraph, nodeAction, graphNext, h]
  | ok st1 =>
    cases h2 : needs_onboarding st1 with
    | error e => simp [runGraph, nodeAction, graphNext, h, h2, ebind_err]
    | ok b => simp [runGraph, nodeAction, graphNext, h, h2, ebind_ok]

/-- One graph step at `onboarding`. -/
theorem runGraph_step_onboarding (store : ConfigStore) (n : Nat) (st : GTMState) :
    runGraph store (Nat.succ n) "onboarding" st =
      match onboardingStage st with
      | .error e => (["onboarding"], .error e)
      | .ok st' => (("onboarding" :: (runGraph store n "reporting" st').1),
          (runGraph store n "reporting" st').2) := by
  cases h : onboardingStage st with
  | error e => simp [runGraph, nodeAction, graphNext, h]
  | ok st1 => simp [runGraph, nodeAction, graphNext, h]

/-- One graph step at `reporting`. -/
theorem runGraph_step_reporting (store : ConfigStore) (n : Nat) (st : GTMState) :
    runGraph store (Nat.succ n) "reporting" st =
      match reportingStage st with
      | .error e => (["reporting"], .error e)
      | .ok st' => (("reporting" :: (runGraph store n "ops" st').1),
          (runGraph store n "ops" st').2) := by
  cases h : reportingStage st with
  | error e => simp [runGraph, nodeAction, graphNext, h]
  | ok st1 => simp [runGraph, nodeAction, graphNext, h]

/-- One graph step at the terminal `ops` node. -/
theorem runGraph_step_ops (store : ConfigStore) (n : Nat) (st : GTMState) :
    runGraph store (Nat.succ n) "ops" st =
      match opsStage st with
      | .error e => (["ops"], .error e)
      | .ok st' => (["ops"], .ok st') := by
  cases h : opsStage st with
  | error e => simp [runGraph, nodeAction, graphNext, h]
  | ok st1 => simp [runGraph, nodeAction, graphNext, h]

end SDR.Thm

namespace SDR.Thm

open SDR SDR.Value SDR.GTM SDR.Spec

/-- C2: for every input, the declarative-graph execution path (the compiled
`StateGraph` of `_build_graph`, interpreted with LangGraph's documented
node/edge semantics) and the straight-line sequential fallback of
`handle_event` produce identical results — the same final run state (hence
the same `decisions` mapping and the same `actions` list in the same
order), and the same propagated exception if a stage raises. -/
theorem graph_and_fallback_agree (store : ConfigStore) (now : Nat)
    (workspace_id event_type : String) (payload : List (String × Value)) :
    graphInvoke store now workspace_id event_type payload =
      handleEventSeq store now workspace_id event_type payload := by
  unfold graphInvoke handleEventSeq
  rw [show (25 : Nat) = Nat.succ (Nat.succ (Nat.succ (Nat.succ (Nat.succ
    (Nat.succ (Nat.succ (Nat.succ 17))))))) from rfl]
  rw [runGraph_step_classify]
  dsimp only
  rw [runGraph_step_schema]
  cases h1 : schemaStage store
      (classifyStage (initState now workspace_id event_type payload)) with
  | error e => rw [ebind_err]
  | ok st1 =>
    rw [ebind_ok]
    dsimp only
    rw [runGraph_step_routing]
    cases h2 : routingStage store st1 with
    | error e => rw [ebind_err]
    | ok st2 =>
      rw [ebind_ok]
      dsimp only
      rw [runGraph_step_lifecycle]
      cases h3 : lifecycleStage store st2 with
      | error e => rw [ebind_err]
      | ok st3 =>
        rw [ebind_ok]
        dsimp only
        rw [runGraph_step_hygiene]
        cases h4 : hygieneStage st3 with
        | error e => rw [ebind_err]
        | ok st4 =>
          rw [ebind_ok]
          dsimp only
          cases h5 : needs_onboarding st4 with
          | error e => rw [ebind_err]
          | ok b =>
            rw [ebind_ok]
            dsimp only
            by_cases hb : b = "onboarding"
            · simp only [if_pos hb]
              rw [runGraph_step_onboarding]
              cases h6 : onboardingStage st4 with
              | error e => rw [ebind_err]
              | ok st5 =>
                rw [ebind_ok]
                dsimp only
                rw [runGraph_step_reporting]
                cases h7 : reportingStage st5 with
                | error e => rw [ebind_err]
                | ok st6 =>
                  rw [ebind_ok]
                  dsimp only
                  rw [runGraph_step_ops]
                  cases h8 : opsStage st6 with
                  | error e => rw [ebind_err]
                  | ok st7 => rw [ebind_ok]
            · simp only [if_neg hb]
              rw [ebind_ok]
              rw [runGraph_step_reporting]
              cases h7 : reportingStage st4 with
              | error e => rw [ebind_err]
              | ok st6 =>
                rw [ebind_ok]
                dsimp only
                rw [runGraph_step_ops]
                cases h8 : opsStage st6 with
                | error e => rw [ebind_err]
                | ok st7 => rw [ebind_ok]

end SDR.Thm

namespace SDR.Thm

open SDR SDR.Value SDR.GTM SDR.Spec

/-- The branch function returns `"onboarding"` when the classified category
is one of the three onboarding-triggering categories. -/
theorem needs_onboarding_eval (st : GTMState) (dd : List (String × Value))
    (c : String)
    (hev : dGet st.decisions "event" = some (vDict dd))
    (hc : dGet dd "category" = some (vStr c))
    (hcs : c = "deal_stage_changed" ∨ c = "qa_updated" ∨ c = "go_live") :
    needs_onboarding st = .ok "onboarding" := by
  unfold needs_onboarding
  rw [hev]
  dsimp only
  rw [Option.getD_some]
  rw [show valueGet (vDict dd) "category" = Except.ok (dGet dd "category") from rfl]
  rw [ebind_ok]
  rw [hc]
  have hb : (c = "deal_stage_changed" || c = "qa_updated" || c = "go_live") = true := by
    rcases hcs with h | h | h <;> simp [h]
  simp [hb]

/-- C1 (the code violates the claim): a missing workspace is *not* recorded
as a stage-local failure — the `KeyError` raised by `JSONConfigStore.load`
inside the schema stage propagates out of `handle_event` (on both execution
paths), aborting the run; and no stage ever appends to `errors`, so every
run that does return a state returns it with `errors = []`. -/
theorem missing_workspace_aborts_run :
    handleEventSeq emptyStore 0 "acme" "deal_created" [] =
      .error "KeyError: Workspace 'acme' not found in config/workspaces.json" ∧
    graphInvoke emptyStore 0 "acme" "deal_created" [] =
      .error "KeyError: Workspace 'acme' not found in config/workspaces.json" ∧
    ∀ (store : ConfigStore) (now : Nat) (workspace_id event_type : String)
      (payload : List (String × Value)) (st : GTMState),
      handleEventSeq store now workspace_id event_type payload = Except.ok st →
      st.errors = [] := by
  refine ⟨rfl, rfl, ?_⟩
  intro store now workspace_id event_type payload st h
  unfold handleEventSeq at h
  dsimp only at h
  rw [except_bind_ok] at h
  obtain ⟨st1, h1, h⟩ := h
  rw [except_bind_ok] at h
  obtain ⟨st2, h2, h⟩ := h
  rw [except_bind_ok] at h
  obtain ⟨st3, h3, h⟩ := h
  rw [except_bind_ok] at h
  obtain ⟨st4, h4, h⟩ := h
  rw [except_bind_ok] at h
  obtain ⟨b, h5, h⟩ := h
  have e4 : st4.errors = [] := by
    rw [(hygieneStage_ok h4).1, (lifecycleStage_ok h3).1, (routingStage_ok h2).1,
      (schemaStage_ok h1).1]
    rfl
  by_cases hb : b = "onboarding"
  · rw [if_pos hb] at h
    rw [except_bind_ok] at h
    obtain ⟨st5, h6, h⟩ := h
    rw [except_bind_ok] at h
    obtain ⟨st6, h7, h⟩ := h
    rw [except_bind_ok] at h
    obtain ⟨st7, h8, h⟩ := h
    have hst : st = st7 := (Except.ok.inj h).symm
    subst hst
    rw [opsStage_ok h8, reportingStage_ok h7, onboardingStage_ok h6, e4]
  · rw [if_neg hb] at h
    rw [ebind_ok] at h
    rw [except_bind_ok] at h
    obtain ⟨st6, h7, h⟩ := h
    rw [except_bind_ok] at h
    obtain ⟨st7, h8, h⟩ := h
    have hst : st = st7 := (Except.ok.inj h).symm
    subst hst
    rw [opsStage_ok h8, reportingStage_ok h7, e4]

/-- Witness for C1's universal part: a run that completes returns an empty
`errors` list. -/
theorem missing_workspace_aborts_run_witness :
    Except.map GTMState.errors (handleEventSeq demoStore 0 "ws1" "deal_created" [])
      = Except.ok [] := by
  obtain ⟨st, hst⟩ : ∃ st,
      handleEventSeq demoStore 0 "ws1" "deal_created" [] = Except.ok st := by
    cases hrun : handleEventSeq demoStore 0 "ws1" "deal_created" [] with
    | error e =>
      have hko : (handleEventSeq demoStore 0 "ws1" "deal_created" []).toOption.isSome
          = true := rfl
      rw [hrun] at hko
      exact absurd hko (by simp [Except.toOption])
    | ok st => exact ⟨st, rfl⟩
  have he := missing_workspace_aborts_run.2.2 demoStore 0 "ws1" "deal_created" [] st hst
  rw [hst]
  simp [Except.map, he]

end SDR.Thm

namespace SDR.Thm

open SDR SDR.Value SDR.GTM SDR.Spec

set_option maxRecDepth 200000 in
/-- C9: a completed run whose event was classified into category
`deal_stage_changed`, `qa_updated` or `go_live` visits exactly the full
stage path — onboarding strictly before reporting; in that path onboarding
indeed precedes reporting; the concrete `"deal_stage_changed"` demo run
takes that path; and the concrete `"lead_created"` run leaves no
`"onboarding"` entry in its final `decisions`. -/
theorem onboarding_branch_ordering :
    (∀ (store : ConfigStore) (now : Nat) (workspace_id event_type : String)
       (payload : List (String × Value)) (tr : List String) (st : GTMState)
       (dd : List (String × Value)) (c : String),
       runGraph store 25 "classify" (initState now workspace_id event_type payload)
         = (tr, Except.ok st) →
       classify event_type payload = vDict dd →
       dGet dd "category" = some (vStr c) →
       (c = "deal_stage_changed" ∨ c = "qa_updated" ∨ c = "go_live") →
       tr = onboardingPath) ∧
    onboardingPath.indexOf "onboarding" < onboardingPath.indexOf "reporting" ∧
    graphTrace demoStore 0 "ws1" "deal_stage_changed" [] = onboardingPath ∧
    Except.map (fun st => dGet st.decisions "onboarding")
      (handleEventSeq demoStore 0 "ws1" "lead_created" []) = Except.ok none := by
  refine ⟨?_, by decide, rfl, rfl⟩
  intro store now workspace_id event_type payload tr st dd c h hdd hc hcs
  rw [show (25 : Nat) = Nat.succ (Nat.succ (Nat.succ (Nat.succ (Nat.succ
    (Nat.succ (Nat.succ (Nat.succ 17))))))) from rfl] at h
  rw [runGraph_step_classify, runGraph_step_schema] at h
  cases h1 : schemaStage store
      (classifyStage (initState now workspace_id event_type payload)) with
  | error e =>
    rw [h1] at h
    simp at h
  | ok st1 =>
    rw [h1] at h
    dsimp only at h
    rw [runGraph_step_routing] at h
    cases h2 : routingStage store st1 with
    | error e =>
      rw [h2] at h
      simp at h
    | ok st2 =>
      rw [h2] at h
      dsimp only at h
      rw [runGraph_step_lifecycle] at h
      cases h3 : lifecycleStage store st2 with
      | error e =>
        rw [h3] at h
        simp at h
      | ok st3 =>
        rw [h3] at h
        dsimp only at h
        rw [runGraph_step_hygiene] at h
        cases h4 : hygieneStage st3 with
        | error e =>
          rw [h4] at h
          simp at h
        | ok st4 =>
          rw [h4] at h
          dsimp only at h
          have hev4 : dGet st4.decisions "event" = some (vDict dd) := by
            rw [(hygieneStage_ok h4).2, (lifecycleStage_ok h3).2,
              (routingStage_ok h2).2, (schemaStage_ok h1).2]
            rw [show dGet (classifyStage
                (initState now workspace_id event_type payload)).decisions "event"
                = some (classify event_type payload) from by
              simp [classifyStage, initState, dGet_dSet_self]]
            rw [hdd]
          have h5 := needs_onboarding_eval st4 dd c hev4 hc hcs
          rw [h5] at h
          dsimp only at h
          rw [show (if ("onboarding" : String) = "onboarding"
              then ("onboarding" : String) else "reporting") = "onboarding"
            from rfl] at h
          rw [runGraph_step_onboarding] at h
          cases h6 : onboardingStage st4 with
          | error e =>
            rw [h6] at h
            simp at h
          | ok st5 =>
            rw [h6] at h
            dsimp only at h
            rw [runGraph_step_reporting] at h
            cases h7 : reportingStage st5 with
            | error e =>
              rw [h7] at h
              simp at h
            | ok st6 =>
              rw [h7] at h
              dsimp only at h
              rw [runGraph_step_ops] at h
              cases h8 : opsStage st6 with
              | error e =>
                rw [h8] at h
                simp at h
              | ok st7 =>
                rw [h8] at h
                dsimp only at h
                injection h with h9 h10
                rw [← h9]
                rfl

set_option maxRecDepth 200000 in
/-- Witness for C9's universal part: the demo `"deal_stage_changed"` run
completes, and the theorem pins its visited-stage trace to the onboarding
path. -/
theorem onboarding_branch_ordering_witness :
    graphTrace demoStore 0 "ws1" "deal_stage_changed" [] = onboardingPath := by
  obtain ⟨st, hst⟩ : ∃ st,
      runGraph demoStore 25 "classify" (initState 0 "ws1" "deal_stage_changed" [])
        = (graphTrace demoStore 0 "ws1" "deal_stage_changed" [], Except.ok st) := by
    cases hrr : (runGraph demoStore 25 "classify"
        (initState 0 "ws1" "deal_stage_changed" [])).2 with
    | error e =>
      have hko : (runGraph demoStore 25 "classify"
          (initState 0 "ws1" "deal_stage_changed" [])).2.toOption.isSome = true := rfl
      rw [hrr] at hko
      exact absurd hko (by simp [Except.toOption])
    | ok st =>
      refine ⟨st, ?_⟩
      rw [← hrr]
      rfl
  exact onboarding_branch_ordering.1 demoStore 0 "ws1" "deal_stage_changed" []
    _ st _ _ hst rfl rfl (Or.inl rfl)

end SDR.Thm
